import Mathlib

/-!
A shallow embedding of the sega_film crate (src/utils.rs, src/codec/cinepak/mod.rs,
src/container/mod.rs) and proofs about the claims of its specification.

Modelling conventions:
* A Rust byte slice is a List Nat; every indexed read reduces the stored value
  mod 256, matching the u8 element type.
* A Rust panic (out-of-bounds index or slice, failed unwrap) is Option.none;
  a normal return is Option.some. A Rust Result is embedded as Except inside
  the Option, so a recoverable Err is some (Except.error ...).
* usize arithmetic on coordinates is exact Nat arithmetic: every value held in
  such a field comes from 16- or 32-bit reads and small sums, far below 2^64.
* A Rust String field is kept as the byte list it was built from; the
  String.from_utf8(...).unwrap() call in the source is modelled by a
  UTF-8 validity gate: invalid bytes make the whole parse none (a panic).
-/

/-- utils.rs uint16_from_bytes: big-endian u16 from two bytes. -/
def uint16_from_bytes (b0 b1 : Nat) : Nat := (b0 <<< 8) + b1

/-- A [u8; 4] array value. -/
structure Bytes4 where
  b0 : Nat
  b1 : Nat
  b2 : Nat
  b3 : Nat
deriving DecidableEq

/-- utils.rs uint32_from_bytes: big-endian u32 from four bytes. -/
def uint32_from_bytes (b : Bytes4) : Nat :=
  (b.b0 <<< 24) + (b.b1 <<< 16) + (b.b2 <<< 8) + b.b3

/-- Read byte i of a slice; callers establish the bound, as in Rust. -/
def byteD (bs : List Nat) (i : Nat) : Nat := bs.getD i 0 % 256

/-- The sub-slice bs[start .. start+len]. -/
def listSlice (bs : List Nat) (start len : Nat) : List Nat := (bs.drop start).take len

/-- A UTF-8 continuation byte, 0x80..0xBF. -/
def isUtf8Cont (b : Nat) : Bool := 128 ≤ b && b < 192

/-- RFC 3629 UTF-8 validity of a byte list; this is the check performed by
Rust's String.from_utf8, whose unwrap panics exactly when this is false. -/
def isValidUtf8 : List Nat → Bool
  | [] => true
  | b :: rest =>
    if b < 128 then isValidUtf8 rest
    else if b < 194 then false
    else if b < 224 then
      match rest with
      | b1 :: rest2 => isUtf8Cont b1 && isValidUtf8 rest2
      | [] => false
    else if b < 240 then
      match rest with
      | b1 :: b2 :: rest3 =>
        (if b = 224 then decide (160 ≤ b1) && decide (b1 < 192)
         else if b = 237 then decide (128 ≤ b1) && decide (b1 < 160)
         else isUtf8Cont b1) && isUtf8Cont b2 && isValidUtf8 rest3
      | _ => false
    else if b < 245 then
      match rest with
      | b1 :: b2 :: b3 :: rest4 =>
        (if b = 240 then decide (144 ≤ b1) && decide (b1 < 192)
         else if b = 244 then decide (128 ≤ b1) && decide (b1 < 144)
         else isUtf8Cont b1) && isUtf8Cont b2 && isUtf8Cont b3 && isValidUtf8 rest4
      | _ => false
    else false

/-- codec/cinepak Strip: one spatial tile of a frame. -/
structure Strip where
  id : Nat
  x1 : Nat
  x2 : Nat
  y1 : Nat
  y2 : Nat
  header : List Nat
  data : List Nat
deriving DecidableEq

/-- codec/cinepak Strip::parse. Reads indexes 0..11 and the slices
bs[0..12] and bs[12..len]; any of these panics when the slice is shorter
than 12 bytes, hence the single length gate. The vertical branch tests
bs[4] (the single byte, exactly as the source does). -/
def Strip.parse (bs : List Nat) (prev_y2 : Nat) : Option Strip :=
  if 12 ≤ bs.length then
    some
      { id := uint16_from_bytes (byteD bs 0) (byteD bs 1)
        x1 := uint16_from_bytes (byteD bs 6) (byteD bs 7)
        x2 := uint16_from_bytes (byteD bs 10) (byteD bs 11)
        y1 :=
          if byteD bs 4 = 0 then prev_y2
          else uint16_from_bytes (byteD bs 4) (byteD bs 5)
        y2 :=
          if byteD bs 4 = 0 then prev_y2 + uint16_from_bytes (byteD bs 8) (byteD bs 9)
          else uint16_from_bytes (byteD bs 8) (byteD bs 9)
        header := listSlice bs 0 12
        data := listSlice bs 12 (bs.length - 12) }
  else none

/-- codec/cinepak Strip::parse_strip_size: the u16 at offset 2 of the
4-byte peek slice. -/
def Strip.parse_strip_size (bs : List Nat) : Nat :=
  uint16_from_bytes (byteD bs 2) (byteD bs 3)

/-- A concrete 12-byte strip whose byte 4 is 0 while the u16 at bytes[4..6]
is 10 (non-zero): header id 0, size 12, y-field 0x000A, x1 3, y2-field 80, x2 5. -/
def c1abs : List Nat := [0, 0, 0, 12, 0, 10, 0, 3, 0, 80, 0, 5]

/-- A concrete 12-byte strip with bytes[4..6] = 0 and bytes[8..10] = 30. -/
def c1rel : List Nat := [0, 0, 0, 12, 0, 0, 0, 3, 0, 30, 0, 5]

/-- C1 counterexample: with prev_y2 = 50 and the u16 at bytes[4..6] equal
to 10 (non-zero) and the u16 at bytes[8..10] equal to 80, the claim as
stated predicts y1 = 10 and y2 = 80; the code branches on byte 4 alone
(which is 0 here), takes the relative branch, and yields y1 = 50, y2 = 130. -/
theorem strip_parse_c1_counterexample :
    uint16_from_bytes (byteD c1abs 4) (byteD c1abs 5) = 10 ∧
    uint16_from_bytes (byteD c1abs 8) (byteD c1abs 9) = 80 ∧
    ¬ ((Strip.parse c1abs 50).map Strip.y1 = some 10 ∧
       (Strip.parse c1abs 50).map Strip.y2 = some 80) ∧
    (Strip.parse c1abs 50).map Strip.y1 = some 50 ∧
    (Strip.parse c1abs 50).map Strip.y2 = some 130 := by
  refine ⟨by decide, by decide, ?_, by decide, by decide⟩
  intro h
  exact absurd h.1 (by decide)

/-- C1 (amended): Strip::parse resolves vertical coordinates by a
two-branch rule keyed on byte 4 alone (the high byte of the 16-bit value
at bytes[4..6]): if byte 4 is 0 then y1 = prev_y2 and
y2 = prev_y2 + u16 at bytes[8..10]; otherwise y1 = u16 at bytes[4..6] and
y2 = u16 at bytes[8..10] directly. x1 (bytes[6..8]) and x2 (bytes[10..12])
are always taken absolutely. -/
theorem strip_parse_vertical_rule (bs : List Nat) (prev_y2 : Nat)
    (h : 12 ≤ bs.length) :
    ∃ s, Strip.parse bs prev_y2 = some s ∧
      (byteD bs 4 = 0 →
        s.y1 = prev_y2 ∧
        s.y2 = prev_y2 + uint16_from_bytes (byteD bs 8) (byteD bs 9)) ∧
      (byteD bs 4 ≠ 0 →
        s.y1 = uint16_from_bytes (byteD bs 4) (byteD bs 5) ∧
        s.y2 = uint16_from_bytes (byteD bs 8) (byteD bs 9)) ∧
      s.x1 = uint16_from_bytes (byteD bs 6) (byteD bs 7) ∧
      s.x2 = uint16_from_bytes (byteD bs 10) (byteD bs 11) := by
  refine ⟨_, by rw [Strip.parse, if_pos h], ?_, ?_, rfl, rfl⟩
  · intro h4
    constructor
    · show (if byteD bs 4 = 0 then prev_y2 else _) = prev_y2
      rw [if_pos h4]
    · show (if byteD bs 4 = 0 then
          prev_y2 + uint16_from_bytes (byteD bs 8) (byteD bs 9) else _) = _
      rw [if_pos h4]
  · intro h4
    constructor
    · show (if byteD bs 4 = 0 then prev_y2 else _) = _
      rw [if_neg h4]
    · show (if byteD bs 4 = 0 then
          prev_y2 + uint16_from_bytes (byteD bs 8) (byteD bs 9) else _) = _
      rw [if_neg h4]

/-- C1 witness: the amended rule evaluated on the relative example,
prev_y2 = 50, delta 30, giving y1 = 50 and y2 = 80. -/
theorem strip_parse_vertical_rule_witness :
    ∃ s, Strip.parse c1rel 50 = some s ∧
      (byteD c1rel 4 = 0 →
        s.y1 = 50 ∧ s.y2 = 50 + uint16_from_bytes (byteD c1rel 8) (byteD c1rel 9)) ∧
      (byteD c1rel 4 ≠ 0 →
        s.y1 = uint16_from_bytes (byteD c1rel 4) (byteD c1rel 5) ∧
        s.y2 = uint16_from_bytes (byteD c1rel 8) (byteD c1rel 9)) ∧
      s.x1 = uint16_from_bytes (byteD c1rel 6) (byteD c1rel 7) ∧
      s.x2 = uint16_from_bytes (byteD c1rel 10) (byteD c1rel 11) :=
  strip_parse_vertical_rule c1rel 50 (by decide)

/-- C9: for a strip slice of length L at least 12, Strip::parse keeps
bytes 0..12 as the header and bytes 12..L as the payload, so the header
is exactly 12 bytes and header plus payload lengths give back L. -/
theorem strip_header_payload (bs : List Nat) (prev_y2 : Nat)
    (h : 12 ≤ bs.length) :
    ∃ s, Strip.parse bs prev_y2 = some s ∧
      s.header = listSlice bs 0 12 ∧
      s.data = listSlice bs 12 (bs.length - 12) ∧
      s.header.length = 12 ∧
      s.data.length = bs.length - 12 ∧
      s.header.length + s.data.length = bs.length := by
  refine ⟨_, by rw [Strip.parse, if_pos h], rfl, rfl, ?_, ?_, ?_⟩
  · show (listSlice bs 0 12).length = 12
    simp [listSlice]
    omega
  · show (listSlice bs 12 (bs.length - 12)).length = bs.length - 12
    simp [listSlice]
  · show (listSlice bs 0 12).length + (listSlice bs 12 (bs.length - 12)).length
        = bs.length
    simp [listSlice]
    omega

/-- C9 witness: the decomposition evaluated on a concrete 14-byte strip. -/
theorem strip_header_payload_witness :
    ∃ s, Strip.parse (c1rel ++ [7, 9]) 0 = some s ∧
      s.header = listSlice (c1rel ++ [7, 9]) 0 12 ∧
      s.data = listSlice (c1rel ++ [7, 9]) 12 ((c1rel ++ [7, 9]).length - 12) ∧
      s.header.length = 12 ∧
      s.data.length = (c1rel ++ [7, 9]).length - 12 ∧
      s.header.length + s.data.length = (c1rel ++ [7, 9]).length :=
  strip_header_payload (c1rel ++ [7, 9]) 0 (by decide)

/-- codec/cinepak Frame: one decoded video sample header. -/
structure Frame where
  width : Nat
  height : Nat
  strip_count : Nat
  keyframe : Bool
  strips : List Strip
deriving DecidableEq

/-- The strip loop of codec/cinepak Frame::parse: one iteration peeks the
declared size at the cursor (panicking when the 4-byte peek slice runs past
the end), slices exactly that many bytes (panicking when the declared size
runs past the end), parses the strip with the carried prev_y2, and recurses
with the cursor advanced by the declared size and prev_y2 set to the
strip's y2. The fixed base offset 12 is STRIP_START_OFFSET. -/
def Frame.parseStrips (bs : List Nat) : Nat → Nat → Nat → Option (List Strip)
  | 0, _, _ => some []
  | Nat.succ n, prev_y2, current_offset =>
    if 12 + current_offset + 4 ≤ bs.length then
      if 12 + current_offset +
          Strip.parse_strip_size (listSlice bs (12 + current_offset) 4) ≤ bs.length then
        match Strip.parse
            (listSlice bs (12 + current_offset)
              (Strip.parse_strip_size (listSlice bs (12 + current_offset) 4)))
            prev_y2 with
        | some strip =>
          match Frame.parseStrips bs n strip.y2
              (current_offset +
                Strip.parse_strip_size (listSlice bs (12 + current_offset) 4)) with
          | some rest => some (strip :: rest)
          | none => none
        | none => none
      else none
    else none

/-- codec/cinepak Frame::parse. Reads the strip count from bytes[8..10]
(so fewer than 10 bytes is a panic), runs the strip loop from cursor 0 and
prev_y2 0, then assembles the frame; the keyframe flag is the strip-id scan
over the parsed strips. -/
def Frame.parse (bs : List Nat) : Option Frame :=
  if 10 ≤ bs.length then
    match Frame.parseStrips bs (uint16_from_bytes (byteD bs 8) (byteD bs 9)) 0 0 with
    | some strips =>
      some
        { width := uint16_from_bytes (byteD bs 6) (byteD bs 7)
          height := uint16_from_bytes (byteD bs 4) (byteD bs 5)
          strip_count := uint16_from_bytes (byteD bs 8) (byteD bs 9)
          keyframe := strips.any (fun strip => strip.id == 16)
          strips := strips }
    | none => none
  else none

/-- The cursor value in front of strip k: 0 for the first strip, and each
following strip starts where the previous declared size ends. -/
def stripOffsetFrom (bs : List Nat) (off : Nat) : Nat → Nat
  | 0 => off
  | Nat.succ k =>
    stripOffsetFrom bs (off + Strip.parse_strip_size (listSlice bs (12 + off) 4)) k

/-- The carried prev_y2 in front of strip k of a parsed strip list, seeded
with the value prev: prev for the first strip, strip (k-1)'s y2 after it. -/
def carriedY2From (prev : Nat) (l : List Strip) : Nat → Nat
  | 0 => prev
  | Nat.succ k => ((l.get? k).map Strip.y2).getD 0

/-- True when walking the declared-size chain from the given cursor for the
given number of strips runs past the end of the frame slice: either the
4-byte size peek or the declared extent of some strip is out of range. -/
def Frame.overshoots (bs : List Nat) : Nat → Nat → Bool
  | 0, _ => false
  | Nat.succ n, current_offset =>
    if 12 + current_offset + 4 ≤ bs.length then
      if 12 + current_offset +
          Strip.parse_strip_size (listSlice bs (12 + current_offset) 4) ≤ bs.length then
        Frame.overshoots bs n
          (current_offset + Strip.parse_strip_size (listSlice bs (12 + current_offset) 4))
      else true
    else true

theorem parseStrips_spec (bs : List Nat) :
    ∀ (n prev off : Nat) (l : List Strip),
      Frame.parseStrips bs n prev off = some l →
      l.length = n ∧
      ∀ k (hk : k < l.length),
        Strip.parse
          (listSlice bs (12 + stripOffsetFrom bs off k)
            (Strip.parse_strip_size (listSlice bs (12 + stripOffsetFrom bs off k) 4)))
          (carriedY2From prev l k) = some (l.get ⟨k, hk⟩) := by
  intro n
  induction n with
  | zero =>
    intro prev off l h
    simp only [Frame.parseStrips] at h
    cases h
    exact ⟨rfl, fun k hk => absurd hk (by simp)⟩
  | succ n ih =>
    intro prev off l h
    simp only [Frame.parseStrips] at h
    split at h
    · split at h
      · split at h
        · rename_i strip hstrip
          split at h
          · rename_i rest hrest
            cases h
            obtain ⟨hlen, hspec⟩ := ih strip.y2
              (off + Strip.parse_strip_size (listSlice bs (12 + off) 4)) rest hrest
            refine ⟨by simp [hlen], ?_⟩
            intro k hk
            cases k with
            | zero => exact hstrip
            | succ j =>
              have hj : j < rest.length := by
                simpa using hk
              have := hspec j hj
              have hoff : stripOffsetFrom bs off (Nat.succ j)
                  = stripOffsetFrom bs
                      (off + Strip.parse_strip_size (listSlice bs (12 + off) 4)) j := rfl
              have hcarry : carriedY2From prev (strip :: rest) (Nat.succ j)
                  = carriedY2From strip.y2 rest j := by
                cases j with
                | zero => rfl
                | succ i => rfl
              rw [hoff, hcarry]
              simpa using this
          · exact absurd h (by simp)
        · exact absurd h (by simp)
      · exact absurd h (by simp)
    · exact absurd h (by simp)

theorem parseStrips_not_overshoot (bs : List Nat) :
    ∀ (n prev off : Nat) (l : List Strip),
      Frame.parseStrips bs n prev off = some l →
      Frame.overshoots bs n off = false := by
  intro n
  induction n with
  | zero => intro prev off l _; rfl
  | succ n ih =>
    intro prev off l h
    simp only [Frame.parseStrips] at h
    split at h
    · split at h
      · split at h
        · rename_i strip hstrip
          split at h
          · rename_i rest hrest
            simp only [Frame.overshoots]
            rw [if_pos (by assumption), if_pos (by assumption)]
            exact ih strip.y2 _ rest hrest
          · exact absurd h (by simp)
        · exact absurd h (by simp)
      · exact absurd h (by simp)
    · exact absurd h (by simp)

/-- C3: on every successful Frame::parse, the keyframe flag is true exactly
when some parsed strip has id 0x10, and in particular a frame whose strip
list is empty is not a keyframe. -/
theorem frame_keyframe_iff (bs : List Nat) (f : Frame)
    (h : Frame.parse bs = some f) :
    (f.keyframe = true ↔ ∃ s ∈ f.strips, s.id = 16) ∧
    (f.strips = [] → f.keyframe = false) := by
  simp only [Frame.parse] at h
  split at h
  · split at h
    · rename_i strips hstrips
      cases h
      constructor
      · simp [List.any_eq_true]
      · intro hnil
        show strips.any (fun strip => strip.id == 16) = false
        rw [show strips = [] from hnil]
        rfl
    · exact absurd h (by simp)
  · exact absurd h (by simp)

/-- A 24-byte frame: height 96, width 320, one strip with id 0x10. -/
def frameEx : List Nat :=
  [0, 0, 0, 0, 0, 96, 1, 64, 0, 1, 0, 0,
   0, 16, 0, 12, 0, 0, 0, 0, 0, 96, 1, 64]

/-- The parse result of frameEx. -/
def frameExParsed : Frame :=
  { width := 320, height := 96, strip_count := 1, keyframe := true,
    strips := [{ id := 16, x1 := 0, x2 := 320, y1 := 0, y2 := 96,
                 header := [0, 16, 0, 12, 0, 0, 0, 0, 0, 96, 1, 64], data := [] }] }

/-- C3 witness: the keyframe rule evaluated on a concrete one-strip frame
whose strip has id 0x10. -/
theorem frame_keyframe_iff_witness :
    Frame.parse frameEx = some frameExParsed ∧
    ((frameExParsed.keyframe = true ↔ ∃ s ∈ frameExParsed.strips, s.id = 16) ∧
     (frameExParsed.strips = [] → frameExParsed.keyframe = false)) :=
  ⟨by decide, frame_keyframe_iff frameEx frameExParsed (by decide)⟩

/-- C7: on every successful Frame::parse, the strip count is the u16 at
bytes[8..10], exactly that many strips are produced, and strip k is parsed
from the slice that starts at 12 plus the accumulated declared sizes of
strips 0..k-1, is as long as strip k's own declared size field, and receives
the carried value: 0 for the first strip, strip (k-1)'s y2 afterwards. -/
theorem frame_strip_chain (bs : List Nat) (f : Frame)
    (h : Frame.parse bs = some f) :
    f.strip_count = uint16_from_bytes (byteD bs 8) (byteD bs 9) ∧
    f.strips.length = f.strip_count ∧
    ∀ k (hk : k < f.strips.length),
      Strip.parse
        (listSlice bs (12 + stripOffsetFrom bs 0 k)
          (Strip.parse_strip_size (listSlice bs (12 + stripOffsetFrom bs 0 k) 4)))
        (carriedY2From 0 f.strips k) = some (f.strips.get ⟨k, hk⟩) := by
  simp only [Frame.parse] at h
  split at h
  · split at h
    · rename_i strips hstrips
      cases h
      obtain ⟨hlen, hspec⟩ := parseStrips_spec bs _ 0 0 strips hstrips
      exact ⟨rfl, hlen, hspec⟩
    · exact absurd h (by simp)
  · exact absurd h (by simp)

/-- A 36-byte frame with two chained strips: the first absolute-zero strip
covers rows 0..48, the second is relative and covers rows 48..96. -/
def frameEx2 : List Nat :=
  [0, 0, 0, 0, 0, 96, 1, 64, 0, 2, 0, 0,
   0, 16, 0, 12, 0, 0, 0, 0, 0, 48, 1, 64,
   0, 17, 0, 12, 0, 0, 0, 0, 0, 48, 1, 64]

/-- The second strip of frameEx2: carried prev_y2 is 48, so rows 48..96. -/
def frameEx2StripB : Strip :=
  { id := 17, x1 := 0, x2 := 320, y1 := 48, y2 := 96,
    header := [0, 17, 0, 12, 0, 0, 0, 0, 0, 48, 1, 64], data := [] }

/-- The parse result of frameEx2. -/
def frameEx2Parsed : Frame :=
  { width := 320, height := 96, strip_count := 2, keyframe := true,
    strips :=
      [{ id := 16, x1 := 0, x2 := 320, y1 := 0, y2 := 48,
         header := [0, 16, 0, 12, 0, 0, 0, 0, 0, 48, 1, 64], data := [] },
       frameEx2StripB] }

/-- C7 witness: the chain rule evaluated on the two-strip frame; strip 1
starts after strip 0's declared 12 bytes and receives strip 0's y2 = 48. -/
theorem frame_strip_chain_witness :
    Frame.parse frameEx2 = some frameEx2Parsed ∧
    frameEx2Parsed.strips.length = frameEx2Parsed.strip_count ∧
    Strip.parse
      (listSlice frameEx2 (12 + stripOffsetFrom frameEx2 0 1)
        (Strip.parse_strip_size (listSlice frameEx2 (12 + stripOffsetFrom frameEx2 0 1) 4)))
      (carriedY2From 0 frameEx2Parsed.strips 1) = some frameEx2StripB := by
  have h : Frame.parse frameEx2 = some frameEx2Parsed := by decide
  refine ⟨h, (frame_strip_chain frameEx2 frameEx2Parsed h).2.1, ?_⟩
  have h1 := (frame_strip_chain frameEx2 frameEx2Parsed h).2.2 1 (by decide)
  exact h1.trans (by decide)

/-- A 16-byte frame claiming one strip whose declared size 50 overshoots. -/
def c2bad : List Nat := [0, 0, 0, 0, 0, 0, 0, 0, 0, 1, 0, 0, 0, 0, 0, 50]

/-- A 16-byte frame claiming one strip whose declared size 100 overshoots. -/
def c2bad2 : List Nat := [0, 0, 0, 0, 0, 0, 0, 0, 0, 1, 0, 0, 0, 0, 0, 100]

/-- C2 counterexample: on a frame whose only strip declares size 50 while
just 4 bytes follow the strip start, Frame::parse neither succeeds nor
returns any recoverable error value: its Rust return type is a bare Frame
with no error channel, and the out-of-range slice panics, modelled as none.
The claim's recoverable MalformedStripError is therefore not what happens. -/
theorem frame_parse_c2_counterexample :
    Strip.parse_strip_size (listSlice c2bad 12 4) = 50 ∧
    c2bad.length < 12 + Strip.parse_strip_size (listSlice c2bad 12 4) ∧
    Frame.parse c2bad = none := by
  refine ⟨by decide, by decide, by decide⟩

/-- C2 (amended): whenever walking the declared-size chain of the frame's
declared strip count overshoots the available bytes (the size peek or the
declared extent of some strip runs past the end), Frame::parse does not
silently succeed: the out-of-bounds slice panics, modelled as none. No
recoverable MalformedStripError exists; the function returns a bare Frame. -/
theorem frame_parse_overshoot_fails (bs : List Nat)
    (h : Frame.overshoots bs (uint16_from_bytes (byteD bs 8) (byteD bs 9)) 0 = true) :
    Frame.parse bs = none := by
  simp only [Frame.parse]
  split
  · split
    · rename_i strips hstrips
      have hfalse := parseStrips_not_overshoot bs _ 0 0 strips hstrips
      rw [hfalse] at h
      cases h
    · rfl
  · rfl

/-- C2 witness: the overshoot rule evaluated on a frame whose single strip
declares size 100 with only 4 bytes available past the strip start. -/
theorem frame_parse_overshoot_fails_witness :
    Frame.overshoots c2bad2 (uint16_from_bytes (byteD c2bad2 8) (byteD c2bad2 9)) 0 = true ∧
    Frame.parse c2bad2 = none :=
  ⟨by decide, frame_parse_overshoot_fails c2bad2 (by decide)⟩

/-- Reading byte s+k of a slice through the sub-slice bs[s .. s+l]. -/
theorem byteD_listSlice (bs : List Nat) (s l k : Nat) (hk : k < l) :
    byteD (listSlice bs s l) k = byteD bs (s + k) := by
  unfold byteD listSlice
  rw [List.getD_eq_getElem?_getD, List.getD_eq_getElem?_getD,
    List.getElem?_take_of_lt hk, List.getElem?_drop]

/-- The sub-slice bs[s .. s+l] has l elements when it fits inside bs. -/
theorem listSlice_length (bs : List Nat) (s l : Nat) (h : s + l ≤ bs.length) :
    (listSlice bs s l).length = l := by
  simp [listSlice]
  omega

/-- container Sample: one demuxed chunk reference from the sample table. -/
structure Sample where
  offset : Nat
  length : Nat
  info1 : Bytes4
  info2 : Bytes4
deriving DecidableEq

/-- container Sample::parse: a fixed 16-byte record, u32 offset, u32
length, raw 4-byte info1 and info2; fewer than 16 bytes is a panic. -/
def Sample.parse (bs : List Nat) : Option Sample :=
  if 16 ≤ bs.length then
    some
      { offset := uint32_from_bytes ⟨byteD bs 0, byteD bs 1, byteD bs 2, byteD bs 3⟩
        length := uint32_from_bytes ⟨byteD bs 4, byteD bs 5, byteD bs 6, byteD bs 7⟩
        info1 := ⟨byteD bs 8, byteD bs 9, byteD bs 10, byteD bs 11⟩
        info2 := ⟨byteD bs 12, byteD bs 13, byteD bs 14, byteD bs 15⟩ }
  else none

/-- container Sample::is_audio: info1 equals four 0xFF bytes. -/
def Sample.is_audio (s : Sample) : Bool := s.info1 == ⟨255, 255, 255, 255⟩

/-- container Sample::is_video: the negation of is_audio. -/
def Sample.is_video (s : Sample) : Bool := !s.is_audio

/-- container Sample::is_keyframe: none for non-video samples, else
whether bit 31 of info1 read as a big-endian u32 is clear. -/
def Sample.is_keyframe (s : Sample) : Option Bool :=
  if !s.is_video then none
  else some (uint32_from_bytes s.info1 &&& (1 <<< 31) == 0)

/-- C6: is_audio holds exactly on the all-0xFF tag, is_video is its exact
negation, is_keyframe is absent on every audio sample, and on every video
sample it is present and true exactly when bit 31 of the tag read as a
big-endian u32 is clear. -/
theorem sample_classification (s : Sample) :
    (s.is_audio = true ↔ s.info1 = ⟨255, 255, 255, 255⟩) ∧
    (s.is_video = !s.is_audio) ∧
    (s.is_audio = true → s.is_keyframe = none) ∧
    (s.is_video = true →
      ∃ b, s.is_keyframe = some b ∧
        (b = true ↔ (uint32_from_bytes s.info1).testBit 31 = false)) := by
  refine ⟨?_, rfl, ?_, ?_⟩
  · simp [Sample.is_audio]
  · intro ha
    simp [Sample.is_keyframe, Sample.is_video, ha]
  · intro hv
    have hk : s.is_keyframe = some (uint32_from_bytes s.info1 &&& (1 <<< 31) == 0) := by
      simp [Sample.is_keyframe, hv]
    refine ⟨_, hk, ?_⟩
    have h2 : (1 : Nat) <<< 31 = 2 ^ 31 := rfl
    rw [h2, Nat.and_two_pow]
    cases hbit : (uint32_from_bytes s.info1).testBit 31 <;> simp

/-- A concrete video sample: info1 is 0x00000001, bit 31 clear. -/
def sampleVid : Sample :=
  { offset := 0, length := 10, info1 := ⟨0, 0, 0, 1⟩, info2 := ⟨0, 0, 0, 0⟩ }

/-- C6 witness: the classification rules evaluated on a concrete video
sample whose tag has bit 31 clear. -/
theorem sample_classification_witness :
    (sampleVid.is_audio = true ↔ sampleVid.info1 = ⟨255, 255, 255, 255⟩) ∧
    (sampleVid.is_video = !sampleVid.is_audio) ∧
    (sampleVid.is_audio = true → sampleVid.is_keyframe = none) ∧
    (sampleVid.is_video = true →
      ∃ b, sampleVid.is_keyframe = some b ∧
        (b = true ↔ (uint32_from_bytes sampleVid.info1).testBit 31 = false)) :=
  sample_classification sampleVid

/-- container STAB: the sample table chunk. -/
structure STAB where
  signature : List Nat
  length : Nat
  framerate : Nat
  entries : Nat
  sample_table : List Sample
deriving DecidableEq

/-- The sample loop of container STAB::parse: for i in 1..entries, slice
the 16 bytes at 16 * i (an out-of-range end is a panic) and hand them to
Sample::parse. The second argument is the iteration counter i, the third
the number of iterations left, entries - 1 at the top call. -/
def STAB.sampleLoop (bs : List Nat) : Nat → Nat → Option (List Sample)
  | _, 0 => some []
  | i, Nat.succ n =>
    if 16 * i + 16 ≤ bs.length then
      match Sample.parse (listSlice bs (16 * i) 16) with
      | some s =>
        match STAB.sampleLoop bs (i + 1) n with
        | some rest => some (s :: rest)
        | none => none
      | none => none
    else none

/-- The 32-bit entry count at bytes[12..16] of a STAB slice. -/
def stabEntries (bs : List Nat) : Nat :=
  uint32_from_bytes ⟨byteD bs 12, byteD bs 13, byteD bs 14, byteD bs 15⟩

/-- container STAB::parse: reads the signature bytes (the from_utf8
unwrap on them panics on invalid UTF-8), the u32 length, the u32 tick
rate, the u32 entry count, then runs the sample loop for i in 1..entries.
Fewer than 16 bytes makes the fixed reads panic. -/
def STAB.parse (bs : List Nat) : Option STAB :=
  if 16 ≤ bs.length then
    match STAB.sampleLoop bs 1 (stabEntries bs - 1) with
    | some samples =>
      if isValidUtf8 (listSlice bs 0 4) then
        some
          { signature := listSlice bs 0 4
            length := uint32_from_bytes ⟨byteD bs 4, byteD bs 5, byteD bs 6, byteD bs 7⟩
            framerate := uint32_from_bytes ⟨byteD bs 8, byteD bs 9, byteD bs 10, byteD bs 11⟩
            entries := stabEntries bs
            sample_table := samples }
      else none
    | none => none
  else none

theorem sampleLoop_spec (bs : List Nat) :
    ∀ (n i : Nat), (∀ j, i ≤ j → j < i + n → 16 * j + 16 ≤ bs.length) →
    ∃ l, STAB.sampleLoop bs i n = some l ∧ l.length = n ∧
      ∀ k, k < n → l.get? k = Sample.parse (listSlice bs (16 * (i + k)) 16) := by
  intro n
  induction n with
  | zero =>
    intro i _
    exact ⟨[], rfl, rfl, fun k hk => absurd hk (by omega)⟩
  | succ n ih =>
    intro i hbound
    have hi : 16 * i + 16 ≤ bs.length := hbound i (le_refl i) (by omega)
    have hslice : 16 ≤ (listSlice bs (16 * i) 16).length := by
      rw [listSlice_length bs (16 * i) 16 hi]
    obtain ⟨s, hS⟩ : ∃ s, Sample.parse (listSlice bs (16 * i) 16) = some s :=
      ⟨_, by rw [Sample.parse, if_pos hslice]⟩
    obtain ⟨rest, hrest, hlen, hspec⟩ := ih (i + 1) (by
      intro j h1 h2
      exact hbound j (by omega) (by omega))
    refine ⟨s :: rest, ?_, by simp [hlen], ?_⟩
    · show STAB.sampleLoop bs i (Nat.succ n) = _
      rw [STAB.sampleLoop, if_pos hi, hS, hrest]
    · intro k hk
      cases k with
      | zero => simpa using hS.symm
      | succ m =>
        have := hspec m (by omega)
        have harith : i + 1 + m = i + (m + 1) := by omega
        rw [harith] at this
        simpa using this

/-- C4 counterexample: a 16-byte STAB slice with entry count 1 but an
invalid-UTF-8 signature: the from_utf8 unwrap in the source panics, so
parse yields no sample table at all instead of the claimed E - 1 = 0
samples. -/
theorem stab_parse_c4_counterexample :
    stabEntries [255, 255, 255, 255, 0, 0, 0, 16, 0, 0, 0, 25, 0, 0, 0, 1] = 1 ∧
    16 * stabEntries [255, 255, 255, 255, 0, 0, 0, 16, 0, 0, 0, 25, 0, 0, 0, 1]
      ≤ ([255, 255, 255, 255, 0, 0, 0, 16, 0, 0, 0, 25, 0, 0, 0, 1] : List Nat).length ∧
    STAB.parse [255, 255, 255, 255, 0, 0, 0, 16, 0, 0, 0, 25, 0, 0, 0, 1] = none := by
  refine ⟨by decide, by decide, by decide⟩

/-- C4 (amended): for every STAB slice whose entry count E is at least 1,
which holds at least 16 * E bytes, and whose first four signature bytes are
valid UTF-8 (the from_utf8 unwrap in the source panics otherwise), parse
returns exactly E - 1 samples; sample i is Sample::parse of the 16-byte
record at offset 16 * (i + 1) (the slot at offset 0 is skipped), and its
offset and length are the big-endian u32 values at offsets 0..4 and 4..8
of that record, in on-disk order. -/
theorem stab_parse_table (bs : List Nat)
    (hE : 1 ≤ stabEntries bs) (hlen : 16 * stabEntries bs ≤ bs.length)
    (hsig : isValidUtf8 (listSlice bs 0 4) = true) :
    ∃ st, STAB.parse bs = some st ∧
      st.sample_table.length = stabEntries bs - 1 ∧
      ∀ k, k < stabEntries bs - 1 →
        st.sample_table.get? k = Sample.parse (listSlice bs (16 * (k + 1)) 16) ∧
        (st.sample_table.get? k).map Sample.offset
          = some (uint32_from_bytes ⟨byteD bs (16 * (k + 1)), byteD bs (16 * (k + 1) + 1),
              byteD bs (16 * (k + 1) + 2), byteD bs (16 * (k + 1) + 3)⟩) ∧
        (st.sample_table.get? k).map Sample.length
          = some (uint32_from_bytes ⟨byteD bs (16 * (k + 1) + 4), byteD bs (16 * (k + 1) + 5),
              byteD bs (16 * (k + 1) + 6), byteD bs (16 * (k + 1) + 7)⟩) := by
  have h16 : 16 ≤ bs.length := le_trans (by omega) hlen
  obtain ⟨l, hloop, hllen, hspec⟩ := sampleLoop_spec bs (stabEntries bs - 1) 1 (by
    intro j h1 h2
    have : j ≤ stabEntries bs - 1 := by omega
    omega)
  have hparse : STAB.parse bs
      = some
        { signature := listSlice bs 0 4
          length := uint32_from_bytes ⟨byteD bs 4, byteD bs 5, byteD bs 6, byteD bs 7⟩
          framerate := uint32_from_bytes ⟨byteD bs 8, byteD bs 9, byteD bs 10, byteD bs 11⟩
          entries := stabEntries bs
          sample_table := l } := by
    rw [STAB.parse, if_pos h16, hloop]
    simp [hsig]
  refine ⟨_, hparse, hllen, ?_⟩
  intro k hk
  dsimp only
  have hget := hspec k (by omega)
  have harith : (1 : Nat) + k = k + 1 := by omega
  rw [harith] at hget
  have hrec : 16 * (k + 1) + 16 ≤ bs.length := by
    have : k + 2 ≤ stabEntries bs := by omega
    have : 16 * (k + 2) ≤ 16 * stabEntries bs := by omega
    omega
  have hsliceLen : 16 ≤ (listSlice bs (16 * (k + 1)) 16).length := by
    rw [listSlice_length bs (16 * (k + 1)) 16 (by omega)]
  have hbyte : ∀ j, j < 16 →
      byteD (listSlice bs (16 * (k + 1)) 16) j = byteD bs (16 * (k + 1) + j) :=
    fun j hj => byteD_listSlice bs (16 * (k + 1)) 16 j hj
  refine ⟨hget, ?_, ?_⟩
  · rw [hget, Sample.parse, if_pos hsliceLen, hbyte 0 (by norm_num),
      hbyte 1 (by norm_num), hbyte 2 (by norm_num), hbyte 3 (by norm_num)]
    simp
  · rw [hget, Sample.parse, if_pos hsliceLen, hbyte 4 (by norm_num),
      hbyte 5 (by norm_num), hbyte 6 (by norm_num), hbyte 7 (by norm_num)]
    simp

/-- A 32-byte STAB: signature "STAB", length 32, tick rate 25, entry
count 2, then one sample record with offset 8, length 4, audio tag. -/
def stabEx : List Nat :=
  [83, 84, 65, 66, 0, 0, 0, 32, 0, 0, 0, 25, 0, 0, 0, 2,
   0, 0, 0, 8, 0, 0, 0, 4, 255, 255, 255, 255, 0, 0, 0, 0]

/-- C4 witness: the table rule evaluated on the concrete two-entry STAB,
yielding exactly one parsed sample. -/
theorem stab_parse_table_witness :
    1 ≤ stabEntries stabEx ∧ 16 * stabEntries stabEx ≤ stabEx.length ∧
    isValidUtf8 (listSlice stabEx 0 4) = true ∧
    (STAB.parse stabEx).map (fun st => st.sample_table.length) = some 1 := by
  refine ⟨by decide, by decide, by decide, ?_⟩
  obtain ⟨st, hst, hlen, _⟩ := stab_parse_table stabEx (by decide) (by decide) (by decide)
  have hmap : (STAB.parse stabEx).map (fun st => st.sample_table.length)
      = some (stabEntries stabEx - 1) := by
    rw [hst]
    simp [hlen]
  rw [hmap]
  decide

/-- A 16-byte STAB slice with entry count 0 and invalid-UTF-8 signature. -/
def c10bad : List Nat := [255, 255, 255, 255, 0, 0, 0, 16, 0, 0, 0, 25, 0, 0, 0, 0]

/-- C10 counterexample: a 16-byte slice whose entry count is 0 but whose
signature bytes are not valid UTF-8: the from_utf8 unwrap in the source
panics, so STAB::parse does not succeed on every such slice. -/
theorem stab_parse_c10_counterexample :
    stabEntries c10bad = 0 ∧ (16 : Nat) ≤ c10bad.length ∧
    STAB.parse c10bad = none := by
  refine ⟨by decide, by decide, by decide⟩

/-- C10 (amended): for every STAB slice of length at least 16 whose entry
count is 0 and whose four signature bytes are valid UTF-8 (the from_utf8
unwrap in the source panics otherwise), STAB::parse succeeds with an empty
sample table: the loop for i in 1..0 runs zero times, nothing underflows,
and no sample record is read. -/
theorem stab_parse_zero_entries (bs : List Nat)
    (h16 : 16 ≤ bs.length) (hE : stabEntries bs = 0)
    (hsig : isValidUtf8 (listSlice bs 0 4) = true) :
    ∃ st, STAB.parse bs = some st ∧ st.sample_table = [] ∧ st.entries = 0 := by
  have h0 : stabEntries bs - 1 = 0 := by omega
  have hloop : STAB.sampleLoop bs 1 (stabEntries bs - 1) = some [] := by
    rw [h0, STAB.sampleLoop]
  have hparse : STAB.parse bs
      = some
        { signature := listSlice bs 0 4
          length := uint32_from_bytes ⟨byteD bs 4, byteD bs 5, byteD bs 6, byteD bs 7⟩
          framerate := uint32_from_bytes ⟨byteD bs 8, byteD bs 9, byteD bs 10, byteD bs 11⟩
          entries := stabEntries bs
          sample_table := [] } := by
    rw [STAB.parse, if_pos h16, hloop]
    simp [hsig]
  exact ⟨_, hparse, rfl, hE⟩

/-- A 16-byte STAB with signature "STAB", tick rate 25 and entry count 0. -/
def stabEx0 : List Nat := [83, 84, 65, 66, 0, 0, 0, 16, 0, 0, 0, 25, 0, 0, 0, 0]

/-- C10 witness: the zero-entry rule evaluated on a concrete empty table. -/
theorem stab_parse_zero_entries_witness :
    (16 : Nat) ≤ stabEx0.length ∧ stabEntries stabEx0 = 0 ∧
    ∃ st, STAB.parse stabEx0 = some st ∧ st.sample_table = [] ∧ st.entries = 0 :=
  ⟨by decide, by decide, stab_parse_zero_entries stabEx0 (by decide) (by decide) (by decide)⟩

/-- Reading byte i of a slice through its length-n front segment. -/
theorem byteD_take (bs : List Nat) (n i : Nat) (h : i < n) :
    byteD (bs.take n) i = byteD bs i := by
  unfold byteD
  rw [List.getD_eq_getElem?_getD, List.getD_eq_getElem?_getD, List.getElem?_take_of_lt h]

/-- container AudioCodec: the audio-compression kind. -/
inductive AudioCodec where
  | PCM
  | ADX
  | Unknown
deriving DecidableEq

/-- container FDSC: the stream format descriptor. -/
structure FDSC where
  signature : List Nat
  length : Nat
  fourcc : List Nat
  height : Nat
  width : Nat
  bpp : Nat
  channels : Nat
  audio_resolution : Nat
  audio_compression : AudioCodec
  audio_sampling_rate : Nat
deriving DecidableEq

/-- container FDSC::parse: a fixed record read at indexes 0..25 (shorter
input panics), with the from_utf8 unwraps on the signature and fourcc
bytes panicking on invalid UTF-8, and the audio-compression code at
byte 23 mapped 0 to PCM, 2 to ADX, anything else to Unknown. -/
def FDSC.parse (bs : List Nat) : Option FDSC :=
  if 26 ≤ bs.length then
    if isValidUtf8 (listSlice bs 0 4) && isValidUtf8 (listSlice bs 8 4) then
      some
        { signature := listSlice bs 0 4
          length := uint32_from_bytes ⟨byteD bs 4, byteD bs 5, byteD bs 6, byteD bs 7⟩
          fourcc := listSlice bs 8 4
          height := uint32_from_bytes ⟨byteD bs 12, byteD bs 13, byteD bs 14, byteD bs 15⟩
          width := uint32_from_bytes ⟨byteD bs 16, byteD bs 17, byteD bs 18, byteD bs 19⟩
          bpp := byteD bs 20
          channels := byteD bs 21
          audio_resolution := byteD bs 22
          audio_compression :=
            match byteD bs 23 with
            | 0 => AudioCodec.PCM
            | 2 => AudioCodec.ADX
            | _ => AudioCodec.Unknown
          audio_sampling_rate := uint16_from_bytes (byteD bs 24) (byteD bs 25) }
    else none
  else none

/-- container FILMHeader: the whole-file header. -/
structure FILMHeader where
  signature : List Nat
  length : Nat
  version : List Nat
  unknown : List Nat
  fdsc : FDSC
  stab : STAB
deriving DecidableEq

/-- The ASCII bytes of the tag "FILM". -/
def filmTag : List Nat := [70, 73, 76, 77]

/-- The ASCII bytes of the tag "FILK". -/
def filkTag : List Nat := [70, 73, 76, 75]

/-- container FILMHeader::is_film_file: reads bytes 0..4 (fewer than 4
bytes is a panic), runs them through the from_utf8 unwrap (invalid UTF-8
is a panic), and compares the result against the tag "FILM". -/
def FILMHeader.is_film_file (bs : List Nat) : Option Bool :=
  if 4 ≤ bs.length then
    if isValidUtf8 (listSlice bs 0 4) then some (listSlice bs 0 4 == filmTag)
    else none
  else none

/-- container FILMHeader::guess_length: the big-endian u32 at bytes 4..8;
fewer than 8 bytes is a panic. -/
def FILMHeader.guess_length (bs : List Nat) : Option Nat :=
  if 8 ≤ bs.length then
    some (uint32_from_bytes ⟨byteD bs 4, byteD bs 5, byteD bs 6, byteD bs 7⟩)
  else none

/-- container FILMHeader::parse: validates the signature (a mismatch is
the recoverable Err), then reads the u32 length, the version bytes
(from_utf8 unwrap), the 4 reserved bytes, delegates bytes 16..48 to
FDSC::parse, and bytes 48..length to STAB::parse. Slicing bytes 48..length
panics when the declared length is below 48 or beyond the input. -/
def FILMHeader.parse (bs : List Nat) : Option (Except String FILMHeader) :=
  if 4 ≤ bs.length then
    if isValidUtf8 (listSlice bs 0 4) then
      if listSlice bs 0 4 ≠ filmTag then some (Except.error "This is not a Sega FILM file!")
      else if 48 ≤ bs.length then
        if isValidUtf8 (listSlice bs 8 4) then
          match FDSC.parse (listSlice bs 16 32) with
          | some f =>
            if 48 ≤ uint32_from_bytes ⟨byteD bs 4, byteD bs 5, byteD bs 6, byteD bs 7⟩ ∧
                uint32_from_bytes ⟨byteD bs 4, byteD bs 5, byteD bs 6, byteD bs 7⟩
                  ≤ bs.length then
              match STAB.parse (listSlice bs 48
                  (uint32_from_bytes ⟨byteD bs 4, byteD bs 5, byteD bs 6, byteD bs 7⟩ - 48)) with
              | some st =>
                some (Except.ok
                  { signature := listSlice bs 0 4
                    length := uint32_from_bytes ⟨byteD bs 4, byteD bs 5, byteD bs 6, byteD bs 7⟩
                    version := listSlice bs 8 4
                    unknown := listSlice bs 12 4
                    fdsc := f
                    stab := st })
              | none => none
            else none
          | none => none
        else none
      else none
    else none
  else none

/-- C5 counterexample: on the 4-byte prefix of four 0xFF bytes (not valid
UTF-8) the from_utf8 unwrap in the source panics, so is_film_file neither
returns false nor returns at all. -/
theorem is_film_file_c5_counterexample :
    FILMHeader.is_film_file [255, 255, 255, 255] = none ∧
    FILMHeader.is_film_file [255, 255, 255, 255] ≠ some false := by
  refine ⟨by decide, by decide⟩

/-- C5 (amended): for every slice of length at least 4 whose first four
bytes are valid UTF-8, is_film_file returns true exactly when those bytes
are "FILM" and false for every other such prefix, and parse on a slice
whose first four bytes are "FILK" fails with the format-mismatch error
without reading past the four validated bytes (the rest of the slice is
arbitrary). On a prefix that is not valid UTF-8 both functions panic. -/
theorem film_signature_check (bs : List Nat) (h4 : 4 ≤ bs.length)
    (hv : isValidUtf8 (listSlice bs 0 4) = true) :
    (FILMHeader.is_film_file bs = some true ↔ listSlice bs 0 4 = filmTag) ∧
    (listSlice bs 0 4 ≠ filmTag → FILMHeader.is_film_file bs = some false) ∧
    (listSlice bs 0 4 = filkTag →
      FILMHeader.parse bs = some (Except.error "This is not a Sega FILM file!")) := by
  have hfil : FILMHeader.is_film_file bs = some (listSlice bs 0 4 == filmTag) := by
    rw [FILMHeader.is_film_file, if_pos h4, if_pos hv]
  refine ⟨?_, ?_, ?_⟩
  · rw [hfil]
    simp
  · intro hne
    rw [hfil]
    simp [hne]
  · intro hk
    rw [FILMHeader.parse, if_pos h4, if_pos hv, hk]
    rw [if_pos (by decide : filkTag ≠ filmTag)]

/-- C5 witness: the signature rules evaluated on the bare 4-byte "FILK"
input. -/
theorem film_signature_check_witness :
    (FILMHeader.is_film_file filkTag = some true ↔ listSlice filkTag 0 4 = filmTag) ∧
    (listSlice filkTag 0 4 ≠ filmTag → FILMHeader.is_film_file filkTag = some false) ∧
    (listSlice filkTag 0 4 = filkTag →
      FILMHeader.parse filkTag = some (Except.error "This is not a Sega FILM file!")) :=
  film_signature_check filkTag (by decide) (by decide)

theorem film_parse_ok_inv (bs : List Nat) (hdr : FILMHeader)
    (h : FILMHeader.parse bs = some (Except.ok hdr)) :
    48 ≤ bs.length ∧
    hdr.length = uint32_from_bytes ⟨byteD bs 4, byteD bs 5, byteD bs 6, byteD bs 7⟩ := by
  simp only [FILMHeader.parse] at h
  split at h
  · split at h
    · split at h
      · exact Except.noConfusion (Option.some.inj h)
      · split at h
        · split at h
          · split at h
            · split at h
              · split at h
                · refine ⟨by assumption, ?_⟩
                  cases Option.some.inj h
                  rfl
                · exact absurd h (by simp)
              · exact absurd h (by simp)
            · exact absurd h (by simp)
          · exact absurd h (by simp)
        · exact absurd h (by simp)
    · exact absurd h (by simp)
  · exact absurd h (by simp)

/-- C8: whenever FILMHeader::parse succeeds on a slice, guess_length on
just the first 8 bytes of that same slice returns exactly the parsed
header's length field. -/
theorem film_guess_length_agrees (bs : List Nat) (hdr : FILMHeader)
    (h : FILMHeader.parse bs = some (Except.ok hdr)) :
    FILMHeader.guess_length (bs.take 8) = some hdr.length := by
  obtain ⟨h48, hlen⟩ := film_parse_ok_inv bs hdr h
  have h8 : 8 ≤ (bs.take 8).length := by
    rw [List.length_take]
    omega
  rw [FILMHeader.guess_length, if_pos h8, hlen,
    byteD_take bs 8 4 (by norm_num), byteD_take bs 8 5 (by norm_num),
    byteD_take bs 8 6 (by norm_num), byteD_take bs 8 7 (by norm_num)]

/-- A 64-byte FILM file: signature "FILM", length 64, version "1.09",
an FDSC with fourcc "cvid" and PCM audio, and a STAB with entry count 1
(an empty sample table). -/
def filmEx : List Nat :=
  [70, 73, 76, 77, 0, 0, 0, 64, 49, 46, 48, 57, 0, 0, 0, 0,
   70, 68, 83, 67, 0, 0, 0, 32, 99, 118, 105, 100, 0, 0, 0, 96,
   0, 0, 1, 64, 24, 1, 8, 0, 0, 0, 0, 0, 0, 0, 0, 0,
   83, 84, 65, 66, 0, 0, 0, 16, 0, 0, 0, 25, 0, 0, 0, 1]

/-- The parse result of filmEx. -/
def filmExParsed : FILMHeader :=
  { signature := [70, 73, 76, 77], length := 64, version := [49, 46, 48, 57],
    unknown := [0, 0, 0, 0],
    fdsc :=
      { signature := [70, 68, 83, 67], length := 32, fourcc := [99, 118, 105, 100],
        height := 96, width := 320, bpp := 24, channels := 1, audio_resolution := 8,
        audio_compression := AudioCodec.PCM, audio_sampling_rate := 0 },
    stab :=
      { signature := [83, 84, 65, 66], length := 16, framerate := 25, entries := 1,
        sample_table := [] } }

/-- C8 witness: the agreement evaluated on the concrete 64-byte file,
where both sides give 64. -/
theorem film_guess_length_agrees_witness :
    FILMHeader.parse filmEx = some (Except.ok filmExParsed) ∧
    FILMHeader.guess_length (filmEx.take 8) = some filmExParsed.length := by
  have h : FILMHeader.parse filmEx = some (Except.ok filmExParsed) := by rfl
  exact ⟨h, film_guess_length_agrees filmEx filmExParsed h⟩
